import Mathlib

/-!
# unifi-stock-monitor: endpoint resolution, product decoding, notification and the polling loop

A shallow embedding of `monitor.go` and `discord.go`.

Conventions of the embedding

* The strings the program handles are Lean `String`s, that is, well-formed text, which is what
  `encoding/json` decodes to; the text scanned by the regular expression is its list of
  characters.  The pattern of `FetchXAppBuild` is pure ASCII, so matching it over characters
  and over bytes agree.  An arbitrary Go `string` is a `GoString`, its bytes.
* A Go `error` is an `Option String` (`none` is `nil`).
* A Go `int` is an `Int` together with the range predicate `InIntRange` (64 bit).
* A Go slice is an `Option (List _)`: `none` is the `nil` slice, `some []` the empty slice.
* A run-time panic is the constructor `Go.panic`.
* The network, the database and the clock are an explicit environment: every answer of the
  outside world is an argument, every effect is an `Event` appended to a trace.
* Library code (`regexp`, `encoding/json`, `fmt`) is modelled by its documented behaviour on the
  inputs this program gives it.
-/

namespace UnifiMonitor

/-! ## Go values -/

/-- Go `error`: `none` is `nil`. -/
abbrev GoError := Option String

/-- Result of a Go call that may panic at run time. -/
inductive Go (α : Type) where
  | ret (a : α)
  | panic (msg : String)
deriving DecidableEq, Repr

/-- What an HTTP exchange hands to its caller: one constructor per error exit of
`http.NewRequest`, `client.Do`, `io.ReadAll`, and the response otherwise. -/
inductive HttpResult (β : Type) where
  | requestError (msg : String)
  | transportError (msg : String)
  | readError (status : Nat) (msg : String)
  | response (status : Nat) (body : β)
deriving DecidableEq, Repr

/-! ## `monitor.go`: constants and the store -/

def HomeURL : String := "https://store.ui.com/us/en"

structure UnifiStore where
  ProdURLs : List String
  Headers : List (String × String)
deriving DecidableEq, Repr

def NewUnifiStore : UnifiStore :=
  { ProdURLs := []
    Headers :=
      [ ("accept", "*/*"),
        ("accept-language", "en-US,en;q=0.6"),
        ("user-agent",
          "Mozilla/5.0 (Macintosh; Intel Mac OS X 10_15_7) AppleWebKit/537.36 (KHTML, like Gecko) Chrome/131.0.0.0 Safari/537.36"),
        ("priority", "u=0, i") ] }

/-! ## The regular expression of `FetchXAppBuild`

`https://assets\.ecomm\.ui\.com/_next/static/([a-zA-Z0-9]+)/_buildManifest\.js`

is a literal, a greedy `+` over a character class inside the capture group, and a literal.
`regexp` returns the leftmost match and, among the matches at that position, the one a
backtracking search finds first; `matchGroup` is that search for the group and what follows. -/

/-- The literal before the capture group. -/
def litPrefix : List Char := "https://assets.ecomm.ui.com/_next/static/".data

/-- The literal after the capture group. -/
def litSuffix : List Char := "/_buildManifest.js".data

/-- The class `[a-zA-Z0-9]`. -/
def isAlnum (c : Char) : Bool :=
  ('a' ≤ c && c ≤ 'z') || ('A' ≤ c && c ≤ 'Z') || ('0' ≤ c && c ≤ '9')

/-- Match a literal at the head of the text; the rest of the text on success. -/
def stripLit : List Char → List Char → Option (List Char)
  | [], s => some s
  | _ :: _, [] => none
  | c :: cs, d :: s => if c = d then stripLit cs s else none

/-- Greedy `[a-zA-Z0-9]+` followed by the suffix literal: after one character of the class the
search first tries another iteration and only then leaves the loop.  Returns the captured text
and the text after the whole match. -/
def matchGroup : List Char → Option (List Char × List Char)
  | [] => none
  | c :: s =>
    if isAlnum c then
      match matchGroup s with
      | some (buildID, rest) => some (c :: buildID, rest)
      | none =>
        match stripLit litSuffix s with
        | some rest => some ([c], rest)
        | none => none
    else none

/-- The pattern anchored at the head of the text. -/
def matchAt (s : List Char) : Option (List Char × List Char) :=
  match stripLit litPrefix s with
  | some t => matchGroup t
  | none => none

/-- Leftmost match: the capture of the first position at which the pattern matches. -/
def findLeftmost : List Char → Option (List Char)
  | [] => none
  | c :: s =>
    match matchAt (c :: s) with
    | some (buildID, _) => some buildID
    | none => findLeftmost s

/-- The call `re.FindStringSubmatch(soup)`: the whole match and the capture, or `nil`. -/
def FindStringSubmatch (soup : String) : List String :=
  match findLeftmost soup.data with
  | some buildID => [String.mk (litPrefix ++ buildID ++ litSuffix), String.mk buildID]
  | none => []

/-- First template of `ProdURLs`, `%s` replaced by the build identifier. -/
def pduProURL (buildID : String) : String :=
  "https://store.ui.com/_next/data/" ++ buildID ++
    "/us/en/category/all-power-tech/collections/power-tech/products/usp-pdu-pro.json"

/-- Second template of `ProdURLs`. -/
def unasProURL (buildID : String) : String :=
  "https://store.ui.com/_next/data/" ++ buildID ++
    "/us/en/category/network-storage/collections/unifi-new-integrations-network-storage/products/unas-pro.json"

/-- Lines 105-122 of `FetchXAppBuild`: from the body of the home page to the store. -/
def resolveBody (store : UnifiStore) (soup : String) : GoError × UnifiStore :=
  match FindStringSubmatch soup with
  | _ :: buildID :: _ =>
    (none, { store with ProdURLs := [pduProURL buildID, unasProURL buildID] })
  | _ => (some "X-App-Build Not Found", store)

/-- `FetchXAppBuild`, given the answer of the home page. -/
def FetchXAppBuild (store : UnifiStore) (home : HttpResult String) : GoError × UnifiStore :=
  match home with
  | .requestError msg => (some msg, store)
  | .transportError msg => (some msg, store)
  | .readError _ msg => (some msg, store)
  | .response _ body => resolveBody store body

/-- An occurrence of the asset path in the text: what is before it, the identifier, what is
after it. -/
def Occurs (body pre buildID post : List Char) : Prop :=
  body = pre ++ (litPrefix ++ (buildID ++ (litSuffix ++ post))) ∧
    buildID ≠ [] ∧ ∀ c ∈ buildID, isAlnum c = true

/-! ## `monitor.go`: the data model -/

structure Thumbnail where
  URL : String
deriving DecidableEq, Repr

/-- The anonymous struct of the field `DisplayPrice` of `Variant`. -/
structure DisplayPrice where
  Amount : Int
  Currency : String
deriving DecidableEq, Repr

structure Variant where
  ID : String
  DisplayPrice : DisplayPrice
deriving DecidableEq, Repr

structure Product where
  ID : String
  Title : String
  Status : String
  ShortDescription : String
  CollectionSlug : String
  Slug : String
  Thumbnail : Thumbnail
  Variants : Option (List Variant)
deriving DecidableEq, Repr

structure PageProps where
  Product : Product
deriving DecidableEq, Repr

structure Response where
  PageProps : PageProps
deriving DecidableEq, Repr

/-- The zero value `Variant{}`. -/
def Variant.zero : Variant := { ID := "", DisplayPrice := { Amount := 0, Currency := "" } }

/-- The zero value `Product{}`. -/
def Product.zero : Product :=
  { ID := "", Title := "", Status := "", ShortDescription := "", CollectionSlug := "",
    Slug := "", Thumbnail := { URL := "" }, Variants := none }

/-- The zero value of `var response Response`. -/
def Response.zero : Response := { PageProps := { Product := Product.zero } }

/-- The values of a Go `int` (64 bit). -/
def InIntRange (n : Int) : Prop := -(2 : Int) ^ 63 ≤ n ∧ n < (2 : Int) ^ 63

instance (n : Int) : Decidable (InIntRange n) := by
  unfold InIntRange; exact inferInstance

/-- Every amount of the product is a value of type `int`. -/
def Product.WellTyped (p : Product) : Prop :=
  ∀ vs, p.Variants = some vs → ∀ v ∈ vs, InIntRange v.DisplayPrice.Amount

/-! ## `encoding/json`: the part `json.Unmarshal(body, &response)` uses

The body is represented by its syntax tree; a body that is not JSON text is `none`.  A number
keeps whether its literal is an integer literal, which is what decoding into an `int` looks at.
The text of an error of the library stands for its message; no statement depends on it, apart
from `exceeded max depth`. -/

inductive JVal where
  | null
  | bool (b : Bool)
  | int (n : Int)
  | real (literal : String)
  | str (s : String)
  | arr (elems : List JVal)
  | obj (members : List (String × JVal))

mutual
/-- How deep arrays and objects are nested in a value: what the scanner counts when it opens
an array or an object. -/
def JVal.depth : JVal → Nat
  | .arr elems => depthElems elems + 1
  | .obj members => depthMembers members + 1
  | _ => 0
/-- The greatest depth of the elements of an array. -/
def depthElems : List JVal → Nat
  | [] => 0
  | x :: xs => max x.depth (depthElems xs)
/-- The greatest depth of the values of the members of an object. -/
def depthMembers : List (String × JVal) → Nat
  | [] => 0
  | (_, v) :: ms => max v.depth (depthMembers ms)
end

/-- The constant `maxNestingDepth` of the scanner: a text nested deeper is a syntax error. -/
def maxNestingDepth : Nat := 10000

/-- Case folding of one character of an object key, as far as it can matter for the ASCII field
names of this program: ASCII letters, and the two non-ASCII characters whose simple case folding
is an ASCII letter (U+017F, U+212A). -/
def foldRune (c : Char) : Char :=
  if 'a' ≤ c ∧ c ≤ 'z' then Char.ofNat (c.toNat - 32)
  else if c = Char.ofNat 0x17F then 'S'
  else if c = Char.ofNat 0x212A then 'K'
  else c

def foldName (s : String) : String := String.mk (s.data.map foldRune)

/-- Field of a struct that an object key is stored into: the field whose name is the key if
there is one, else the first field whose name equals the key up to case.  The result is the
index of the field in the struct declaration. -/
def lookupField (names : List String) (key : String) : Option Nat :=
  match names.findIdx? (fun n => n == key) with
  | some i => some i
  | none => names.findIdx? (fun n => foldName n == foldName key)

/-- Decode into a `string`: a JSON string is stored, `null` leaves the field as it is, any
other value is an `UnmarshalTypeError`. -/
def decodeString (cur : String) : JVal → Except String String
  | .str s => .ok s
  | .null => .ok cur
  | _ => .error "json: cannot unmarshal value into Go value of type string"

/-- Decode into an `int`: an integer literal in range is stored, `null` leaves the field as it
is, any other value (a literal with a fraction or an exponent included) is an
`UnmarshalTypeError`. -/
def decodeInt (cur : Int) : JVal → Except String Int
  | .int n =>
    if InIntRange n then .ok n
    else .error "json: cannot unmarshal number into Go value of type int"
  | .null => .ok cur
  | _ => .error "json: cannot unmarshal value into Go value of type int"

/-- Decode the members of an object into a struct, in the order of the text: a member whose key
names no field is skipped, a member whose key names a field is decoded into the value the field
has at that point. -/
def decodeMembers {σ : Type} (names : List String)
    (store : σ → Nat → JVal → Except String σ) :
    σ → List (String × JVal) → Except String σ
  | cur, [] => .ok cur
  | cur, (key, val) :: rest =>
    match lookupField names key with
    | some i =>
      match store cur i val with
      | .ok next => decodeMembers names store next rest
      | .error e => .error e
    | none => decodeMembers names store cur rest

/-- Decode into a struct: an object is decoded member by member, `null` leaves the struct as it
is, any other value is an `UnmarshalTypeError`. -/
def decodeStruct {σ : Type} (names : List String)
    (store : σ → Nat → JVal → Except String σ) (cur : σ) : JVal → Except String σ
  | .obj members => decodeMembers names store cur members
  | .null => .ok cur
  | _ => .error "json: cannot unmarshal value into Go struct"

/-- Decode the elements of an array one after the other: the element of index `i` is decoded
into what the backing array of the slice holds at index `i`, a zero value where the array ends.
`old` is the backing array from the index of the first element on. -/
def decodeElems {α : Type} (elem : α → JVal → Except String α) (zero : α) :
    List α → List JVal → Except String (List α)
  | _, [] => .ok []
  | old, x :: xs =>
    match elem (old.headD zero) x with
    | .ok a =>
      match decodeElems elem zero old.tail xs with
      | .ok as => .ok (a :: as)
      | .error e => .error e
    | .error e => .error e

/-- Decode into a slice: `cur` is the slice, `spare` what its backing array holds after its
length.  An empty array gives a new empty slice; any other array is decoded element by element
into the backing array, and the length is set to the number of elements; `null` sets the slice
to `nil`; any other value is an `UnmarshalTypeError`.  The result is the slice and what its
backing array holds after its length. -/
def decodeSlice {α : Type} (elem : α → JVal → Except String α) (zero : α)
    (cur : Option (List α)) (spare : List α) : JVal → Except String (Option (List α) × List α)
  | .arr [] => .ok (some [], [])
  | .arr (x :: xs) =>
    match decodeElems elem zero (cur.getD [] ++ spare) (x :: xs) with
    | .ok as => .ok (some as, (cur.getD [] ++ spare).drop (x :: xs).length)
    | .error e => .error e
  | .null => .ok (none, [])
  | _ => .error "json: cannot unmarshal value into Go slice"

/-- A struct while it is decoded into: its value, and what the backing array of the slice
`Variants` inside it holds after the length of the slice. -/
structure Decoding (σ : Type) where
  value : σ
  spare : List Variant

/-- Field names (`json` tags) of `Thumbnail`. -/
def thumbnailFields : List String := ["url"]

/-- Field names of the struct of `DisplayPrice`. -/
def displayPriceFields : List String := ["amount", "currency"]

/-- Field names of `Variant`. -/
def variantFields : List String := ["id", "displayPrice"]

/-- Field names of `Product`. -/
def productFields : List String :=
  ["id", "title", "status", "shortDescription", "collectionSlug", "slug", "thumbnail", "variants"]

/-- Field names of `PageProps`. -/
def pagePropsFields : List String := ["product"]

/-- Field names of `Response`. -/
def responseFields : List String := ["pageProps"]

def storeThumbnail (t : Thumbnail) (i : Nat) (v : JVal) : Except String Thumbnail :=
  match i with
  | 0 => (decodeString t.URL v).map fun s => { t with URL := s }
  | _ => .ok t

def decodeThumbnail : Thumbnail → JVal → Except String Thumbnail :=
  decodeStruct thumbnailFields storeThumbnail

def storeDisplayPrice (d : DisplayPrice) (i : Nat) (v : JVal) : Except String DisplayPrice :=
  match i with
  | 0 => (decodeInt d.Amount v).map fun n => { d with Amount := n }
  | 1 => (decodeString d.Currency v).map fun s => { d with Currency := s }
  | _ => .ok d

def decodeDisplayPrice : DisplayPrice → JVal → Except String DisplayPrice :=
  decodeStruct displayPriceFields storeDisplayPrice

def storeVariant (x : Variant) (i : Nat) (v : JVal) : Except String Variant :=
  match i with
  | 0 => (decodeString x.ID v).map fun s => { x with ID := s }
  | 1 => (decodeDisplayPrice x.DisplayPrice v).map fun d => { x with DisplayPrice := d }
  | _ => .ok x

def decodeVariant : Variant → JVal → Except String Variant :=
  decodeStruct variantFields storeVariant

def storeProduct (p : Decoding Product) (i : Nat) (v : JVal) :
    Except String (Decoding Product) :=
  match i with
  | 0 => (decodeString p.value.ID v).map fun s => { p with value := { p.value with ID := s } }
  | 1 =>
    (decodeString p.value.Title v).map fun s => { p with value := { p.value with Title := s } }
  | 2 =>
    (decodeString p.value.Status v).map fun s => { p with value := { p.value with Status := s } }
  | 3 =>
    (decodeString p.value.ShortDescription v).map fun s =>
      { p with value := { p.value with ShortDescription := s } }
  | 4 =>
    (decodeString p.value.CollectionSlug v).map fun s =>
      { p with value := { p.value with CollectionSlug := s } }
  | 5 => (decodeString p.value.Slug v).map fun s => { p with value := { p.value with Slug := s } }
  | 6 =>
    (decodeThumbnail p.value.Thumbnail v).map fun t =>
      { p with value := { p.value with Thumbnail := t } }
  | 7 =>
    (decodeSlice decodeVariant Variant.zero p.value.Variants p.spare v).map fun r =>
      { value := { p.value with Variants := r.1 }, spare := r.2 }
  | _ => .ok p

def decodeProduct : Decoding Product → JVal → Except String (Decoding Product) :=
  decodeStruct productFields storeProduct

def storePageProps (pp : Decoding PageProps) (i : Nat) (v : JVal) :
    Except String (Decoding PageProps) :=
  match i with
  | 0 =>
    (decodeProduct { value := pp.value.Product, spare := pp.spare } v).map fun p =>
      { value := { pp.value with Product := p.value }, spare := p.spare }
  | _ => .ok pp

def decodePageProps : Decoding PageProps → JVal → Except String (Decoding PageProps) :=
  decodeStruct pagePropsFields storePageProps

def storeResponse (r : Decoding Response) (i : Nat) (v : JVal) :
    Except String (Decoding Response) :=
  match i with
  | 0 =>
    (decodePageProps { value := r.value.PageProps, spare := r.spare } v).map fun pp =>
      { value := { r.value with PageProps := pp.value }, spare := pp.spare }
  | _ => .ok r

/-- The call `json.Unmarshal(body, &response)` on a response whose slice has no backing array
beyond its length, as the new variable of `MonitorProduct`: the error, or the response after
the call.  The text is scanned first: a text that is not JSON or is nested deeper than
`maxNestingDepth` is a syntax error and nothing is decoded. -/
def Unmarshal (body : Option JVal) (response : Response) : Except String Response :=
  match body with
  | none => .error "invalid character"
  | some j =>
    if maxNestingDepth < j.depth then .error "exceeded max depth"
    else
      (decodeStruct responseFields storeResponse { value := response, spare := [] } j).map
        fun r => r.value

/-- `MonitorProduct`, given the answer of the network to a GET of each URL. -/
def MonitorProduct (http : String → HttpResult (Option JVal)) (url : String) :
    Product × GoError :=
  match http url with
  | .requestError msg => (Product.zero, some msg)
  | .transportError msg => (Product.zero, some msg)
  | .readError _ msg => (Product.zero, some msg)
  | .response _ body =>
    match Unmarshal body Response.zero with
    | .error e => (Product.zero, some ("failed to parse JSON: " ++ e))
    | .ok response => (response.PageProps.Product, none)

/-- The object `json.Marshal` writes for a `Variant`, from the struct tags. -/
def encodeVariant (v : Variant) : JVal :=
  .obj [("id", .str v.ID),
    ("displayPrice",
      .obj [("amount", .int v.DisplayPrice.Amount), ("currency", .str v.DisplayPrice.Currency)])]

/-- What `json.Marshal` writes for a slice of variants: `null` for the `nil` slice, an array
otherwise. -/
def encodeVariants : Option (List Variant) → JVal
  | none => .null
  | some vs => .arr (vs.map encodeVariant)

/-- The object `json.Marshal` writes for a `Product`, from the struct tags. -/
def encodeProduct (p : Product) : JVal :=
  .obj [("id", .str p.ID), ("title", .str p.Title), ("status", .str p.Status),
    ("shortDescription", .str p.ShortDescription), ("collectionSlug", .str p.CollectionSlug),
    ("slug", .str p.Slug), ("thumbnail", .obj [("url", .str p.Thumbnail.URL)]),
    ("variants", encodeVariants p.Variants)]

/-- The envelope `{pageProps: {product: ...}}` around a product. -/
def envelope (p : Product) : JVal :=
  .obj [("pageProps", .obj [("product", encodeProduct p)])]

/-! ## Go values of type `Product`

The strings of the program are text: they come out of `json.Unmarshal`, which only produces
well-formed UTF-8.  A Go `string` as such is any sequence of bytes.  `GoProduct` is a value of
the Go type `Product` with its strings as bytes; writing it with `json.Marshal` reads every
string as UTF-8, an invalid byte becoming U+FFFD. -/

/-- A Go `string`: its bytes. -/
abbrev GoString := List Nat

/-- The rune `utf8.RuneError`. -/
def RuneError : Char := Char.ofNat 0xFFFD

/-- The UTF-8 encoding of one character. -/
def encodeRune (c : Char) : GoString :=
  if c.toNat < 0x80 then [c.toNat]
  else if c.toNat < 0x800 then [0xC0 + c.toNat / 64, 0x80 + c.toNat % 64]
  else if c.toNat < 0x10000 then
    [0xE0 + c.toNat / 4096, 0x80 + c.toNat / 64 % 64, 0x80 + c.toNat % 64]
  else
    [0xF0 + c.toNat / 262144, 0x80 + c.toNat / 4096 % 64, 0x80 + c.toNat / 64 % 64,
      0x80 + c.toNat % 64]

/-- The bytes of a text. -/
def utf8Bytes : List Char → GoString
  | [] => []
  | c :: cs => encodeRune c ++ utf8Bytes cs

/-- The lowest second byte `utf8.DecodeRune` accepts after a first byte. -/
def acceptLo (b0 : Nat) : Nat := if b0 = 0xE0 then 0xA0 else if b0 = 0xF0 then 0x90 else 0x80

/-- The highest second byte `utf8.DecodeRune` accepts after a first byte. -/
def acceptHi (b0 : Nat) : Nat := if b0 = 0xED then 0x9F else if b0 = 0xF4 then 0x8F else 0xBF

/-- The function `utf8.DecodeRune`: the first rune of the bytes and its width; `RuneError` with
width 1 when the bytes do not start with a well-formed encoding. -/
def decodeRune : GoString → Char × Nat
  | [] => (RuneError, 0)
  | b0 :: rest =>
    if b0 < 0x80 then (Char.ofNat b0, 1)
    else if b0 < 0xC2 ∨ 0xF4 < b0 then (RuneError, 1)
    else
      match rest with
      | [] => (RuneError, 1)
      | b1 :: rest1 =>
        if b1 < acceptLo b0 ∨ acceptHi b0 < b1 then (RuneError, 1)
        else if b0 < 0xE0 then (Char.ofNat (b0 % 32 * 64 + b1 % 64), 2)
        else
          match rest1 with
          | [] => (RuneError, 1)
          | b2 :: rest2 =>
            if b2 < 0x80 ∨ 0xBF < b2 then (RuneError, 1)
            else if b0 < 0xF0 then
              (Char.ofNat (b0 % 16 * 4096 + b1 % 64 * 64 + b2 % 64), 3)
            else
              match rest2 with
              | [] => (RuneError, 1)
              | b3 :: _ =>
                if b3 < 0x80 ∨ 0xBF < b3 then (RuneError, 1)
                else
                  (Char.ofNat (b0 % 8 * 262144 + b1 % 64 * 4096 + b2 % 64 * 64 + b3 % 64), 4)

/-- The runes of a string, read one `decodeRune` after the other; `skip` is the number of bytes
still to pass over because they belong to the rune read last. -/
def readRunes : Nat → GoString → List Char
  | _, [] => []
  | skip + 1, _ :: rest => readRunes skip rest
  | 0, b :: rest => (decodeRune (b :: rest)).1 :: readRunes ((decodeRune (b :: rest)).2 - 1) rest

/-- The text `json.Marshal` writes for a string and `json.Unmarshal` reads back: its runes,
every byte that is not part of a well-formed encoding replaced by U+FFFD. -/
def readText (s : GoString) : String := String.mk (readRunes 0 s)

/-- The string is well-formed UTF-8: it is the encoding of a text. -/
def GoString.IsUTF8 (s : GoString) : Prop := ∃ t : String, s = utf8Bytes t.data

structure GoThumbnail where
  URL : GoString
deriving DecidableEq, Repr

structure GoDisplayPrice where
  Amount : Int
  Currency : GoString
deriving DecidableEq, Repr

structure GoVariant where
  ID : GoString
  DisplayPrice : GoDisplayPrice
deriving DecidableEq, Repr

/-- A value of the Go type `Product`, its strings as bytes. -/
structure GoProduct where
  ID : GoString
  Title : GoString
  Status : GoString
  ShortDescription : GoString
  CollectionSlug : GoString
  Slug : GoString
  Thumbnail : GoThumbnail
  Variants : Option (List GoVariant)
deriving DecidableEq, Repr

/-- The Go value of a variant whose strings are text. -/
def Variant.toGo (v : Variant) : GoVariant :=
  { ID := utf8Bytes v.ID.data
    DisplayPrice :=
      { Amount := v.DisplayPrice.Amount, Currency := utf8Bytes v.DisplayPrice.Currency.data } }

/-- The Go value of a product whose strings are text. -/
def Product.toGo (p : Product) : GoProduct :=
  { ID := utf8Bytes p.ID.data
    Title := utf8Bytes p.Title.data
    Status := utf8Bytes p.Status.data
    ShortDescription := utf8Bytes p.ShortDescription.data
    CollectionSlug := utf8Bytes p.CollectionSlug.data
    Slug := utf8Bytes p.Slug.data
    Thumbnail := { URL := utf8Bytes p.Thumbnail.URL.data }
    Variants := p.Variants.map fun vs => vs.map Variant.toGo }

/-- A variant as `json.Marshal` writes it: every string read as text. -/
def GoVariant.text (v : GoVariant) : Variant :=
  { ID := readText v.ID
    DisplayPrice := { Amount := v.DisplayPrice.Amount, Currency := readText v.DisplayPrice.Currency } }

/-- A product as `json.Marshal` writes it: every string read as text. -/
def GoProduct.text (g : GoProduct) : Product :=
  { ID := readText g.ID
    Title := readText g.Title
    Status := readText g.Status
    ShortDescription := readText g.ShortDescription
    CollectionSlug := readText g.CollectionSlug
    Slug := readText g.Slug
    Thumbnail := { URL := readText g.Thumbnail.URL }
    Variants := g.Variants.map fun vs => vs.map GoVariant.text }

/-- The envelope `{pageProps: {product: json.Marshal(g)}}` around a Go value. -/
def marshalEnvelope (g : GoProduct) : JVal := envelope g.text

/-- Every string of the variant is well-formed UTF-8. -/
def GoVariant.IsUTF8 (v : GoVariant) : Prop :=
  GoString.IsUTF8 v.ID ∧ GoString.IsUTF8 v.DisplayPrice.Currency

/-- Every string of the product is well-formed UTF-8. -/
def GoProduct.IsUTF8 (g : GoProduct) : Prop :=
  GoString.IsUTF8 g.ID ∧ GoString.IsUTF8 g.Title ∧ GoString.IsUTF8 g.Status ∧
    GoString.IsUTF8 g.ShortDescription ∧ GoString.IsUTF8 g.CollectionSlug ∧
    GoString.IsUTF8 g.Slug ∧ GoString.IsUTF8 g.Thumbnail.URL ∧
    ∀ vs, g.Variants = some vs → ∀ v ∈ vs, v.IsUTF8

/-- Every amount of the product is a value of type `int`. -/
def GoProduct.WellTyped (g : GoProduct) : Prop :=
  ∀ vs, g.Variants = some vs → ∀ v ∈ vs, InIntRange v.DisplayPrice.Amount

/-! ## `discord.go` -/

def DiscordWebhookURL : String :=
  "https://discord.com/api/webhooks/898013000000000000/3gWz4cG9xYh4gU7lHl3OcE5k8hBw0bZ4d4Y"

/-- The verbs `%d` (`width = 0`) and `%02d` (`width = 2`) of `fmt`: the decimal digits of the
absolute value, padded with zeros up to the width less the place of the sign, then the sign. -/
def fmtInteger (width : Nat) (n : Int) : String :=
  let digits := Nat.toDigits 10 n.natAbs
  let prec := if n < 0 then width - 1 else width
  let padded := List.replicate (prec - digits.length) '0' ++ digits
  String.mk (if n < 0 then '-' :: padded else padded)

/-- The value `fmt.Sprintf("$%d.%02d", amount/100, amount%100)`; `/` and `%` of Go truncate
toward zero. -/
def priceString (amount : Int) : String :=
  "$" ++ fmtInteger 0 (amount.tdiv 100) ++ "." ++ fmtInteger 2 (amount.tmod 100)

/-- The index expression `s[0]` on a slice. -/
def index0 {α : Type} : Option (List α) → Go α
  | some (a :: _) => .ret a
  | _ => .panic "runtime error: index out of range [0] with length 0"

/-- One element of `"fields"`. -/
structure EmbedField where
  name : String
  value : String
  inline : Bool
deriving DecidableEq, Repr

/-- The element of `"embeds"`. -/
structure Embed where
  title : String
  description : String
  url : String
  fields : List EmbedField
  thumbnailURL : String
  color : Nat
  footerText : String
  footerIconURL : String
deriving DecidableEq, Repr

/-- The map `payload` of `SendWebhook`. -/
structure Payload where
  embeds : List Embed
deriving DecidableEq, Repr

/-- The composite literal `payload` of `SendWebhook`, its operands evaluated in the order of
the source. -/
def webhookPayload (product : Product) : Go Payload :=
  match index0 product.Variants with
  | .panic msg => .panic msg
  | .ret forDiv =>
    match index0 product.Variants with
    | .panic msg => .panic msg
    | .ret forMod =>
      match index0 product.Variants with
      | .panic msg => .panic msg
      | .ret forID =>
        .ret
          { embeds :=
              [ { title := product.Title
                  description := product.ShortDescription ++ "\n"
                  url :=
                    "https://store.ui.com/us/en/category/" ++ product.CollectionSlug ++
                      "/products/" ++ product.Slug
                  fields :=
                    [ { name := "Price"
                        value :=
                          "$" ++ fmtInteger 0 (forDiv.DisplayPrice.Amount.tdiv 100) ++ "." ++
                            fmtInteger 2 (forMod.DisplayPrice.Amount.tmod 100)
                        inline := true },
                      { name := "Status", value := product.Status, inline := true },
                      { name := "Variant", value := forID.ID, inline := true } ]
                  thumbnailURL := product.Thumbnail.URL
                  color := 0x0000ff
                  footerText := "Unifi Store Monitor"
                  footerIconURL :=
                    "https://tse3.mm.bing.net/th?id=OIP.RadjPrUUrLwqfVTEI5YqmwHaIV&pid=Api&P=0&w=300&h=300" } ] }

/-- `SendWebhook`, given the error of `http.Post` (`nil` when the request went through): the
payload that was posted and the error returned.  `json.Marshal` does not fail on a payload of
strings, booleans and an integer. -/
def SendWebhook (post : GoError) (product : Product) : Go (Payload × GoError) :=
  match webhookPayload product with
  | .panic msg => .panic msg
  | .ret payload => .ret (payload, post)

/-- The value of the field of that name in the first embed of a payload. -/
def Payload.field (payload : Payload) (name : String) : Option String :=
  match payload.embeds with
  | [] => none
  | e :: _ => (e.fields.find? fun f => f.name == name).map fun f => f.value

/-! ## `monitor.go`: `Start` -/

/-- What `Start` does to the outside world, in the order it does it. -/
inductive Event where
  | resolve (err : GoError)
  | monitor (url : String) (product : Product) (err : GoError)
  | insert (product : Product)
  | exportCollection
  | webhook (product : Product)
  | post (payload : Payload) (err : GoError)
  | sleep (seconds : Nat)
deriving DecidableEq, Repr

/-- The answers of the outside world during one iteration of the outer loop: the home page, the
answer to the GET of the `k`-th endpoint, the error of the `http.Post` made for it. -/
structure World where
  home : HttpResult String
  product : Nat → String → HttpResult (Option JVal)
  post : Nat → GoError

/-- The loop `for _, url := range store.ProdURLs`, from its `k`-th iteration on: the events,
and the message of the panic that ended it, if one did. -/
def monitorLoop (w : World) : Nat → List String → List Event × Option String
  | _, [] => ([], none)
  | k, url :: urls =>
    match MonitorProduct (w.product k) url with
    | (product, some err) =>
      let rest := monitorLoop w (k + 1) urls
      ([.monitor url product (some err), .insert product, .exportCollection, .sleep 30] ++ rest.1,
        rest.2)
    | (product, none) =>
      if product.Status = "Available" then
        match SendWebhook (w.post k) product with
        | .panic msg =>
          ([.monitor url product none, .insert product, .exportCollection, .webhook product],
            some msg)
        | .ret (payload, err) =>
          let rest := monitorLoop w (k + 1) urls
          ([.monitor url product none, .insert product, .exportCollection, .webhook product,
              .post payload err] ++ rest.1,
            rest.2)
      else
        let rest := monitorLoop w (k + 1) urls
        ([.monitor url product none, .insert product, .exportCollection] ++ rest.1, rest.2)

/-- State and effects of one iteration of the outer loop. -/
structure CycleResult where
  store : UnifiStore
  trace : List Event
  panic : Option String

/-- One iteration of the outer `for` of `Start`. -/
def cycle (store : UnifiStore) (w : World) : CycleResult :=
  match FetchXAppBuild store w.home with
  | (some err, next) => { store := next, trace := [.resolve (some err), .sleep 30], panic := none }
  | (none, next) =>
    match monitorLoop w 0 next.ProdURLs with
    | (events, some msg) => { store := next, trace := .resolve none :: events, panic := some msg }
    | (events, none) =>
      { store := next, trace := .resolve none :: (events ++ [.sleep 30]), panic := none }

/-- The outer loop of `Start` once the database is open, one iteration for each world of the
list; a panic ends it. -/
def Start : UnifiStore → List World → List Event × Option String
  | _, [] => ([], none)
  | store, w :: ws =>
    match (cycle store w).panic with
    | some msg => ((cycle store w).trace, some msg)
    | none =>
      let rest := Start (cycle store w).store ws
      ((cycle store w).trace ++ rest.1, rest.2)

/-! ## Reading a trace -/

/-- The products `SendWebhook` was called with. -/
def notified : List Event → List Product
  | [] => []
  | .webhook p :: es => p :: notified es
  | _ :: es => notified es

/-- The products that `MonitorProduct` returned with a `nil` error and status `"Available"`. -/
def fetchedAvailable : List Event → List Product
  | [] => []
  | .monitor _ p none :: es =>
    if p.Status = "Available" then p :: fetchedAvailable es else fetchedAvailable es
  | _ :: es => fetchedAvailable es

/-- The URLs `MonitorProduct` was called with. -/
def fetchedURLs : List Event → List String
  | [] => []
  | .monitor url _ _ :: es => url :: fetchedURLs es
  | _ :: es => fetchedURLs es

/-- The number of calls of `MonitorProduct` that returned an error. -/
def fetchErrors : List Event → Nat
  | [] => 0
  | .monitor _ _ (some _) :: es => fetchErrors es + 1
  | _ :: es => fetchErrors es

/-- The seconds slept. -/
def totalSleep : List Event → Nat
  | [] => 0
  | .sleep n :: es => n + totalSleep es
  | _ :: es => totalSleep es

/-- What the endpoints answer, decoded: the results `MonitorProduct` gives for the `k`-th
endpoint and the ones after it. -/
def fetchResults (w : World) : Nat → List String → List (Product × GoError)
  | _, [] => []
  | k, url :: urls => MonitorProduct (w.product k) url :: fetchResults w (k + 1) urls

/-- The products of the results with a `nil` error and status `"Available"`. -/
def availableOf : List (Product × GoError) → List Product
  | [] => []
  | (p, none) :: rs => if p.Status = "Available" then p :: availableOf rs else availableOf rs
  | (_, some _) :: rs => availableOf rs

/-! ## Shapes of bodies and sample inputs -/

/-- A value for `pageProps` that brings no product: `null`, or an object none of whose keys
names the field `product`. -/
def hasNoProduct : JVal → Bool
  | .null => true
  | .obj members => members.all fun m => (lookupField pagePropsFields m.1).isNone
  | _ => false

/-- A body that is JSON but brings no product: `null`, or an object in which every member is
either skipped (its key does not name `pageProps`) or a `pageProps` without a product. -/
def lacksProduct : JVal → Bool
  | .null => true
  | .obj members =>
    members.all fun m => (lookupField responseFields m.1).isNone || hasNoProduct m.2
  | _ => false

/-- A product in stock, with one variant at 379.00 USD. -/
def sampleProduct : Product :=
  { ID := "c5ddda0a", Title := "Power Distribution Pro", Status := "Available",
    ShortDescription := "PDU", CollectionSlug := "power-tech", Slug := "usp-pdu-pro",
    Thumbnail := { URL := "https://cdn.ecomm.ui.com/pdu.png" },
    Variants := some [{ ID := "USP-PDU-Pro", DisplayPrice := { Amount := 37900, Currency := "USD" } }] }

/-- The same product, sold out. -/
def soldOutProduct : Product := { sampleProduct with Status := "SoldOut" }

/-- The same product with a negative amount. -/
def negativeProduct : Product :=
  { sampleProduct with
    Variants := some [{ ID := "USP-PDU-Pro", DisplayPrice := { Amount := -5, Currency := "USD" } }] }

/-- The body `{"pageProps":{"product":{"status":"Available","variants":[]}}}`. -/
def noVariantsBody : JVal :=
  .obj [("pageProps", .obj [("product", .obj [("status", .str "Available"), ("variants", .arr [])])])]

/-- The body `{"pageProps":{"product":{"status":"Available"}}}`. -/
def missingVariantsBody : JVal :=
  .obj [("pageProps", .obj [("product", .obj [("status", .str "Available")])])]

/-- The Go value of the sample product with the title `"caf\xff"`, whose last byte is not
UTF-8. -/
def badTitleProduct : GoProduct :=
  { sampleProduct.toGo with Title := [0x63, 0x61, 0x66, 0xFF] }

/-- A home page that holds the asset path with the identifier `aB3`. -/
def homePage : String :=
  "<script src=\"https://assets.ecomm.ui.com/_next/static/aB3/_buildManifest.js\"></script>"

/-- A page that holds the asset path twice, with the identifiers `aB3` and `zz9`. -/
def twoPathsPage : String :=
  "<script src=\"https://assets.ecomm.ui.com/_next/static/aB3/_buildManifest.js\"></script>https://assets.ecomm.ui.com/_next/static/zz9/_buildManifest.js"

/-- The store after a resolution against `homePage`. -/
def resolvedStore : UnifiStore :=
  { NewUnifiStore with
    ProdURLs :=
      [ "https://store.ui.com/_next/data/aB3/us/en/category/all-power-tech/collections/power-tech/products/usp-pdu-pro.json",
        "https://store.ui.com/_next/data/aB3/us/en/category/network-storage/collections/unifi-new-integrations-network-storage/products/unas-pro.json" ] }

/-- Nothing fails: both endpoints answer with a product that is sold out. -/
def quietWorld : World :=
  { home := .response 200 homePage
    product := fun _ _ => .response 200 (some (envelope soldOutProduct))
    post := fun _ => none }

/-- The first endpoint cannot be reached, the second answers. -/
def firstFetchFails : World :=
  { quietWorld with
    product := fun k _ =>
      if k = 0 then .transportError "dial tcp: i/o timeout"
      else .response 200 (some (envelope soldOutProduct)) }

/-- Neither endpoint can be reached. -/
def bothFetchesFail : World :=
  { quietWorld with product := fun _ _ => .transportError "dial tcp: i/o timeout" }

/-- The first endpoint answers with a product in stock that has an empty list of variants, the
second with a product in stock. -/
def firstHasNoVariants : World :=
  { quietWorld with
    product := fun k _ =>
      if k = 0 then .response 200 (some noVariantsBody)
      else .response 200 (some (envelope sampleProduct)) }

/-- The first endpoint answers with a product that is sold out, the second with a product in
stock. -/
def secondInStock : World :=
  { quietWorld with
    product := fun k _ =>
      if k = 0 then .response 200 (some (envelope soldOutProduct))
      else .response 200 (some (envelope sampleProduct)) }

/-- Both products are in stock and the webhook cannot be reached. -/
def webhookDown : World :=
  { quietWorld with
    product := fun _ _ => .response 200 (some (envelope sampleProduct))
    post := fun _ => some "Post: connection refused" }

/-- The home page cannot be reached. -/
def homeDown : World := { quietWorld with home := .transportError "dial tcp: i/o timeout" }

/-! ## Resolver: lemmas -/

theorem stripLit_eq_some (l s r : List Char) : stripLit l s = some r ↔ s = l ++ r := by
  induction l generalizing s with
  | nil => simp [stripLit, eq_comm]
  | cons c cs ih =>
    cases s with
    | nil => simp [stripLit]
    | cons d s =>
      by_cases h : c = d
      · subst h; simp [stripLit, ih]
      · simp only [stripLit, h, if_false, List.cons_append, List.cons.injEq]
        constructor
        · intro h'; cases h'
        · intro h'; exact absurd h'.1.symm h

theorem matchGroup_sound (s buildID rest : List Char) (h : matchGroup s = some (buildID, rest)) :
    s = buildID ++ (litSuffix ++ rest) ∧ buildID ≠ [] ∧ ∀ c ∈ buildID, isAlnum c = true := by
  induction s generalizing buildID rest with
  | nil => simp [matchGroup] at h
  | cons c s ih =>
    unfold matchGroup at h
    by_cases hc : isAlnum c = true
    · simp only [hc, if_true] at h
      cases hm : matchGroup s with
      | some p =>
        obtain ⟨b, r⟩ := p
        simp only [hm, Option.some.injEq, Prod.mk.injEq] at h
        obtain ⟨h1, h2⟩ := h
        subst h1; subst h2
        obtain ⟨e, _, ha⟩ := ih b r hm
        refine ⟨by rw [e]; rfl, by simp, ?_⟩
        intro x hx
        rcases List.mem_cons.1 hx with hx | hx
        · subst hx; exact hc
        · exact ha x hx
      | none =>
        simp only [hm] at h
        cases hs : stripLit litSuffix s with
        | none => simp [hs] at h
        | some r =>
          simp only [hs, Option.some.injEq, Prod.mk.injEq] at h
          obtain ⟨h1, h2⟩ := h
          subst h1; subst h2
          refine ⟨?_, by simp, ?_⟩
          · rw [(stripLit_eq_some _ _ _).1 hs]; rfl
          · intro x hx
            simp only [List.mem_singleton] at hx
            subst hx; exact hc
    · simp [hc] at h

theorem matchGroup_complete (buildID rest : List Char) (hne : buildID ≠ [])
    (hal : ∀ c ∈ buildID, isAlnum c = true) :
    matchGroup (buildID ++ (litSuffix ++ rest)) = some (buildID, rest) := by
  induction buildID with
  | nil => exact absurd rfl hne
  | cons c b ih =>
    have hc : isAlnum c = true := hal c (List.mem_cons_self _ _)
    have hb : ∀ x ∈ b, isAlnum x = true := fun x hx => hal x (List.mem_cons_of_mem _ hx)
    cases b with
    | nil =>
      have hnone : matchGroup (litSuffix ++ rest) = none := by
        simp [litSuffix, matchGroup, isAlnum]
      have hs : stripLit litSuffix (litSuffix ++ rest) = some rest :=
        (stripLit_eq_some _ _ _).2 rfl
      show matchGroup (c :: (litSuffix ++ rest)) = _
      unfold matchGroup
      simp [hc, hnone, hs]
    | cons d b =>
      have hrec : matchGroup (d :: (b ++ (litSuffix ++ rest))) = some (d :: b, rest) :=
        ih (by simp) hb
      show matchGroup (c :: (d :: (b ++ (litSuffix ++ rest)))) = _
      rw [matchGroup]
      simp only [hc, if_true, hrec]

theorem matchAt_iff (s buildID rest : List Char) :
    matchAt s = some (buildID, rest) ↔ Occurs s [] buildID rest := by
  unfold matchAt Occurs
  constructor
  · intro h
    cases hp : stripLit litPrefix s with
    | none => simp [hp] at h
    | some t =>
      simp only [hp] at h
      obtain ⟨e, hne, hal⟩ := matchGroup_sound t buildID rest h
      refine ⟨?_, hne, hal⟩
      rw [(stripLit_eq_some _ _ _).1 hp, e]; rfl
  · rintro ⟨e, hne, hal⟩
    have hp : stripLit litPrefix s = some (buildID ++ (litSuffix ++ rest)) :=
      (stripLit_eq_some _ _ _).2 (by simpa using e)
    simp only [hp]
    exact matchGroup_complete buildID rest hne hal

theorem occurs_nil (pre buildID post : List Char) : ¬ Occurs [] pre buildID post := by
  rintro ⟨e, _, _⟩
  have h := congrArg List.length e
  have hp : 0 < litPrefix.length := by decide
  simp only [List.length_nil, List.length_append] at h
  omega

theorem occurs_cons (c : Char) (s pre buildID post : List Char) :
    Occurs (c :: s) pre buildID post ↔
      (pre = [] ∧ matchAt (c :: s) = some (buildID, post)) ∨
        ∃ pre1, pre = c :: pre1 ∧ Occurs s pre1 buildID post := by
  constructor
  · intro h
    cases pre with
    | nil => exact Or.inl ⟨rfl, (matchAt_iff _ _ _).2 h⟩
    | cons d pre1 =>
      obtain ⟨e, hne, hal⟩ := h
      simp only [List.cons_append, List.cons.injEq] at e
      obtain ⟨e1, e2⟩ := e
      subst e1
      exact Or.inr ⟨pre1, rfl, e2, hne, hal⟩
  · rintro (⟨e, h⟩ | ⟨pre1, e, h, hne, hal⟩)
    · subst e; exact (matchAt_iff _ _ _).1 h
    · subst e
      exact ⟨by rw [h]; rfl, hne, hal⟩

theorem findLeftmost_none (s : List Char) (h : findLeftmost s = none)
    (pre buildID post : List Char) : ¬ Occurs s pre buildID post := by
  induction s generalizing pre with
  | nil => exact occurs_nil _ _ _
  | cons c s ih =>
    intro ho
    unfold findLeftmost at h
    cases hm : matchAt (c :: s) with
    | some p => simp [hm] at h
    | none =>
      simp only [hm] at h
      rcases (occurs_cons _ _ _ _ _).1 ho with ⟨_, h1⟩ | ⟨pre1, _, h1⟩
      · rw [hm] at h1; cases h1
      · exact ih h pre1 h1

theorem findLeftmost_some (s buildID : List Char) (h : findLeftmost s = some buildID) :
    ∃ pre post, Occurs s pre buildID post ∧
      ∀ pre1 id1 post1, Occurs s pre1 id1 post1 →
        pre.length ≤ pre1.length ∧ (pre1.length = pre.length → id1 = buildID) := by
  induction s with
  | nil => simp [findLeftmost] at h
  | cons c s ih =>
    unfold findLeftmost at h
    cases hm : matchAt (c :: s) with
    | some p =>
      obtain ⟨b, rest⟩ := p
      simp only [hm, Option.some.injEq] at h
      subst h
      refine ⟨[], rest, (matchAt_iff _ _ _).1 hm, ?_⟩
      intro pre1 id1 post1 ho
      refine ⟨Nat.zero_le _, ?_⟩
      intro hl
      have hp : pre1 = [] := List.length_eq_zero.1 hl
      subst hp
      have h1 := (matchAt_iff _ _ _).2 ho
      rw [hm] at h1
      simp only [Option.some.injEq, Prod.mk.injEq] at h1
      exact h1.1.symm
    | none =>
      simp only [hm] at h
      obtain ⟨pre, post, ho, hmin⟩ := ih h
      refine ⟨c :: pre, post, (occurs_cons _ _ _ _ _).2 (Or.inr ⟨pre, rfl, ho⟩), ?_⟩
      intro pre1 id1 post1 ho1
      rcases (occurs_cons _ _ _ _ _).1 ho1 with ⟨_, h1⟩ | ⟨pre2, e, h1⟩
      · rw [hm] at h1; cases h1
      · subst e
        obtain ⟨hle, heq⟩ := hmin pre2 id1 post1 h1
        refine ⟨by simpa using hle, ?_⟩
        intro hl
        exact heq (by simpa using hl)

theorem findLeftmost_isSome_of_occurs (s pre buildID post : List Char)
    (h : Occurs s pre buildID post) : ∃ id0, findLeftmost s = some id0 := by
  cases hf : findLeftmost s with
  | none => exact absurd h (findLeftmost_none s hf pre buildID post)
  | some id0 => exact ⟨id0, rfl⟩

/-! ## Resolver: the claims -/

/-- C1.  When the body of the home page contains the asset path with a non-empty alphanumeric
identifier, `FetchXAppBuild` returns `nil` and sets `ProdURLs` to the two product URLs, in the
order of the source, built from the identifier of the leftmost occurrence of the path: no
occurrence starts earlier, and an occurrence that starts at the same place has the same
identifier. -/
theorem FetchXAppBuild_resolves_leftmost (store : UnifiStore) (status : Nat) (soup : String)
    (pre buildID post : List Char) (h : Occurs soup.data pre buildID post) :
    ∃ pre0 id0 post0, Occurs soup.data pre0 id0 post0 ∧
      (∀ pre1 id1 post1, Occurs soup.data pre1 id1 post1 →
        pre0.length ≤ pre1.length ∧ (pre1.length = pre0.length → id1 = id0)) ∧
      FetchXAppBuild store (.response status soup) =
        (none,
          { store with
            ProdURLs :=
              [ "https://store.ui.com/_next/data/" ++ String.mk id0 ++
                  "/us/en/category/all-power-tech/collections/power-tech/products/usp-pdu-pro.json",
                "https://store.ui.com/_next/data/" ++ String.mk id0 ++
                  "/us/en/category/network-storage/collections/unifi-new-integrations-network-storage/products/unas-pro.json" ] }) := by
  obtain ⟨id0, hf⟩ := findLeftmost_isSome_of_occurs _ _ _ _ h
  obtain ⟨pre0, post0, ho, hmin⟩ := findLeftmost_some _ _ hf
  refine ⟨pre0, id0, post0, ho, hmin, ?_⟩
  simp only [FetchXAppBuild, resolveBody, FindStringSubmatch, hf, pduProURL, unasProURL]

/-- C1, at a page that holds the path twice: the identifier of the first one is used. -/
theorem FetchXAppBuild_resolves_leftmost_witness :
    Occurs twoPathsPage.data "<script src=\"".data "aB3".data
        "\"></script>https://assets.ecomm.ui.com/_next/static/zz9/_buildManifest.js".data ∧
      ∃ pre0 id0 post0, Occurs twoPathsPage.data pre0 id0 post0 ∧
        (∀ pre1 id1 post1, Occurs twoPathsPage.data pre1 id1 post1 →
          pre0.length ≤ pre1.length ∧ (pre1.length = pre0.length → id1 = id0)) ∧
        FetchXAppBuild NewUnifiStore (.response 200 twoPathsPage) =
          (none,
            { NewUnifiStore with
              ProdURLs :=
                [ "https://store.ui.com/_next/data/" ++ String.mk id0 ++
                    "/us/en/category/all-power-tech/collections/power-tech/products/usp-pdu-pro.json",
                  "https://store.ui.com/_next/data/" ++ String.mk id0 ++
                    "/us/en/category/network-storage/collections/unifi-new-integrations-network-storage/products/unas-pro.json" ] }) :=
  have h : Occurs twoPathsPage.data "<script src=\"".data "aB3".data
      "\"></script>https://assets.ecomm.ui.com/_next/static/zz9/_buildManifest.js".data :=
    ⟨by decide, by decide, by decide⟩
  ⟨h, FetchXAppBuild_resolves_leftmost NewUnifiStore 200 twoPathsPage _ _ _ h⟩

/-! ## Decoding: lemmas -/

theorem lookupField_single (n key : String) (i : Nat) (h : lookupField [n] key = some i) :
    i = 0 := by
  unfold lookupField at h
  simp only [List.findIdx?_cons, List.findIdx?_nil] at h
  split at h
  · rename_i j hj
    split at hj <;> simp_all
  · split at h <;> simp_all

theorem decodeVariant_encode (v : Variant) (hv : InIntRange v.DisplayPrice.Amount) :
    decodeVariant Variant.zero (encodeVariant v) = .ok v := by
  have k0 : lookupField variantFields "id" = some 0 := by decide
  have k1 : lookupField variantFields "displayPrice" = some 1 := by decide
  have k2 : lookupField displayPriceFields "amount" = some 0 := by decide
  have k3 : lookupField displayPriceFields "currency" = some 1 := by decide
  simp [decodeVariant, decodeStruct, encodeVariant, decodeMembers, k0, k1, k2, k3,
    storeVariant, decodeString, decodeDisplayPrice, storeDisplayPrice, decodeInt, hv, Except.map,
    Variant.zero]

theorem decodeElems_encode (vs : List Variant)
    (h : ∀ v ∈ vs, InIntRange v.DisplayPrice.Amount) :
    decodeElems decodeVariant Variant.zero [] (vs.map encodeVariant) = .ok vs := by
  induction vs with
  | nil => rfl
  | cons v vs ih =>
    have hv := decodeVariant_encode v (h v (List.mem_cons_self _ _))
    have hvs := ih fun x hx => h x (List.mem_cons_of_mem _ hx)
    simp only [List.map_cons, decodeElems, List.headD_nil, List.tail_nil, hv, hvs]

theorem decodeSlice_encode (variants : Option (List Variant))
    (h : ∀ vs, variants = some vs → ∀ v ∈ vs, InIntRange v.DisplayPrice.Amount) :
    decodeSlice decodeVariant Variant.zero none [] (encodeVariants variants) =
      .ok (variants, []) := by
  cases variants with
  | none => rfl
  | some vs =>
    cases vs with
    | nil => rfl
    | cons v vs =>
      have he := decodeElems_encode (v :: vs) (h (v :: vs) rfl)
      simp only [List.map_cons] at he
      simp only [encodeVariants, List.map_cons, decodeSlice, Option.getD_none, List.append_nil,
        he, List.drop_nil]

theorem depthElems_encode (vs : List Variant) : depthElems (vs.map encodeVariant) ≤ 2 := by
  induction vs with
  | nil => simp [depthElems]
  | cons v vs ih =>
    simp only [List.map_cons, depthElems, encodeVariant, JVal.depth, depthMembers]
    omega

theorem depth_envelope (p : Product) : (envelope p).depth ≤ 6 := by
  have h : (encodeVariants p.Variants).depth ≤ 3 := by
    cases p.Variants with
    | none => simp [encodeVariants, JVal.depth]
    | some vs =>
      have := depthElems_encode vs
      simp only [encodeVariants, JVal.depth]
      omega
  simp only [envelope, encodeProduct, JVal.depth, depthMembers]
  omega

theorem Unmarshal_envelope (p : Product) (h : p.WellTyped) :
    Unmarshal (some (envelope p)) Response.zero = .ok { PageProps := { Product := p } } := by
  have k0 : lookupField productFields "id" = some 0 := by decide
  have k1 : lookupField productFields "title" = some 1 := by decide
  have k2 : lookupField productFields "status" = some 2 := by decide
  have k3 : lookupField productFields "shortDescription" = some 3 := by decide
  have k4 : lookupField productFields "collectionSlug" = some 4 := by decide
  have k5 : lookupField productFields "slug" = some 5 := by decide
  have k6 : lookupField productFields "thumbnail" = some 6 := by decide
  have k7 : lookupField productFields "variants" = some 7 := by decide
  have k8 : lookupField thumbnailFields "url" = some 0 := by decide
  have k9 : lookupField pagePropsFields "product" = some 0 := by decide
  have k10 : lookupField responseFields "pageProps" = some 0 := by decide
  have hv := decodeSlice_encode p.Variants h
  have hd : ¬ (maxNestingDepth < (envelope p).depth) := by
    have := depth_envelope p
    simp only [maxNestingDepth]
    omega
  simp only [Unmarshal, hd, if_false]
  obtain ⟨id, title, status, sd, cs, slug, ⟨turl⟩, variants⟩ := p
  simp [envelope, encodeProduct, decodeStruct, decodeMembers, k0, k1, k2, k3, k4, k5, k6,
    k7, k8, k9, k10, storeResponse, storePageProps, storeProduct, decodePageProps, decodeProduct,
    decodeThumbnail, storeThumbnail, decodeString, hv, Except.map, Response.zero, Product.zero]

theorem MonitorProduct_envelope (p : Product) (h : p.WellTyped) (status : Nat) (url : String) :
    MonitorProduct (fun _ => .response status (some (envelope p))) url = (p, none) := by
  simp only [MonitorProduct, Unmarshal_envelope p h]

theorem decodeMembers_skip {σ : Type} (names : List String)
    (store : σ → Nat → JVal → Except String σ) (cur : σ) (members : List (String × JVal))
    (h : ∀ m ∈ members, lookupField names m.1 = none) :
    decodeMembers names store cur members = .ok cur := by
  induction members with
  | nil => rfl
  | cons m ms ih =>
    obtain ⟨key, val⟩ := m
    have hk : lookupField names key = none := h (key, val) (List.mem_cons_self _ _)
    simp only [decodeMembers, hk]
    exact ih fun x hx => h x (List.mem_cons_of_mem _ hx)

theorem decodePageProps_hasNoProduct (pp : Decoding PageProps) (j : JVal)
    (h : hasNoProduct j = true) : decodePageProps pp j = .ok pp := by
  cases j with
  | null => rfl
  | obj members =>
    simp only [hasNoProduct, List.all_eq_true, Option.isNone_iff_eq_none] at h
    exact decodeMembers_skip _ _ _ _ h
  | _ => simp [hasNoProduct] at h

theorem decodeMembers_lacksProduct (r : Decoding Response) (members : List (String × JVal))
    (h : ∀ m ∈ members, lookupField responseFields m.1 = none ∨ hasNoProduct m.2 = true) :
    decodeMembers responseFields storeResponse r members = .ok r := by
  induction members with
  | nil => rfl
  | cons m ms ih =>
    obtain ⟨key, val⟩ := m
    have hms := ih fun x hx => h x (List.mem_cons_of_mem _ hx)
    cases hk : lookupField responseFields key with
    | none => simp only [decodeMembers, hk]; exact hms
    | some i =>
      have hi : i = 0 := lookupField_single _ _ _ hk
      subst hi
      have hv : hasNoProduct val = true := by
        rcases h (key, val) (List.mem_cons_self _ _) with h1 | h1
        · rw [hk] at h1; cases h1
        · exact h1
      simp only [decodeMembers, hk, storeResponse, decodePageProps_hasNoProduct _ _ hv, Except.map]
      exact hms

theorem Unmarshal_lacksProduct (j : JVal) (h : lacksProduct j = true)
    (hd : j.depth ≤ maxNestingDepth) :
    Unmarshal (some j) Response.zero = .ok Response.zero := by
  have hd2 : ¬ (maxNestingDepth < j.depth) := by omega
  simp only [Unmarshal, hd2, if_false]
  cases j with
  | null => rfl
  | obj members =>
    simp only [lacksProduct, List.all_eq_true, Bool.or_eq_true, Option.isNone_iff_eq_none] at h
    simp only [decodeStruct, decodeMembers_lacksProduct _ _ h, Except.map]
  | _ => simp [lacksProduct] at h

theorem decodeRune_encodeRune (c : Char) (tail : List Nat) :
    decodeRune (encodeRune c ++ tail) = (c, (encodeRune c).length) := by
  have hv : c.toNat < 0xD800 ∨ (0xDFFF < c.toNat ∧ c.toNat < 0x110000) := c.valid
  have hc := Char.ofNat_toNat c
  unfold encodeRune
  generalize c.toNat = v at hv hc ⊢
  by_cases h1 : v < 0x80
  · simp [h1, decodeRune, hc]
  · by_cases h2 : v < 0x800
    · have e : (0xC0 + v / 64) % 32 * 64 + (0x80 + v % 64) % 64 = v := by omega
      have a1 : ¬ (0xC0 + v / 64 < 0x80) := by omega
      have a2 : ¬ (0xC0 + v / 64 < 0xC2 ∨ 0xF4 < 0xC0 + v / 64) := by omega
      have a3 : ¬ (0x80 + v % 64 < acceptLo (0xC0 + v / 64) ∨
          acceptHi (0xC0 + v / 64) < 0x80 + v % 64) := by
        unfold acceptLo acceptHi; split_ifs <;> omega
      have a4 : 0xC0 + v / 64 < 0xE0 := by omega
      simp only [h1, h2, if_false, if_true, List.cons_append, List.nil_append, decodeRune, a1, a2,
        a3, a4, e, hc, List.length_cons, List.length_nil]
    · by_cases h3 : v < 0x10000
      · have e : (0xE0 + v / 4096) % 16 * 4096 + (0x80 + v / 64 % 64) % 64 * 64 +
            (0x80 + v % 64) % 64 = v := by omega
        have a1 : ¬ (0xE0 + v / 4096 < 0x80) := by omega
        have a2 : ¬ (0xE0 + v / 4096 < 0xC2 ∨ 0xF4 < 0xE0 + v / 4096) := by omega
        have a3 : ¬ (0x80 + v / 64 % 64 < acceptLo (0xE0 + v / 4096) ∨
            acceptHi (0xE0 + v / 4096) < 0x80 + v / 64 % 64) := by
          unfold acceptLo acceptHi; split_ifs <;> omega
        have a4 : ¬ (0xE0 + v / 4096 < 0xE0) := by omega
        have a5 : ¬ (0x80 + v % 64 < 0x80 ∨ 0xBF < 0x80 + v % 64) := by omega
        have a6 : 0xE0 + v / 4096 < 0xF0 := by omega
        simp only [h1, h2, h3, if_false, if_true, List.cons_append, List.nil_append, decodeRune,
          a1, a2, a3, a4, a5, a6, e, hc, List.length_cons, List.length_nil]
      · have e : (0xF0 + v / 262144) % 8 * 262144 + (0x80 + v / 4096 % 64) % 64 * 4096 +
            (0x80 + v / 64 % 64) % 64 * 64 + (0x80 + v % 64) % 64 = v := by omega
        have a1 : ¬ (0xF0 + v / 262144 < 0x80) := by omega
        have a2 : ¬ (0xF0 + v / 262144 < 0xC2 ∨ 0xF4 < 0xF0 + v / 262144) := by omega
        have a3 : ¬ (0x80 + v / 4096 % 64 < acceptLo (0xF0 + v / 262144) ∨
            acceptHi (0xF0 + v / 262144) < 0x80 + v / 4096 % 64) := by
          unfold acceptLo acceptHi; split_ifs <;> omega
        have a4 : ¬ (0xF0 + v / 262144 < 0xE0) := by omega
        have a5 : ¬ (0x80 + v / 64 % 64 < 0x80 ∨ 0xBF < 0x80 + v / 64 % 64) := by omega
        have a6 : ¬ (0xF0 + v / 262144 < 0xF0) := by omega
        have a7 : ¬ (0x80 + v % 64 < 0x80 ∨ 0xBF < 0x80 + v % 64) := by omega
        simp only [h1, h2, h3, if_false, if_true, List.cons_append, List.nil_append, decodeRune,
          a1, a2, a3, a4, a5, a6, a7, e, hc, List.length_cons, List.length_nil]

theorem readRunes_skip (bs tail : List Nat) :
    readRunes bs.length (bs ++ tail) = readRunes 0 tail := by
  induction bs with
  | nil => rfl
  | cons b bs ih => simpa [readRunes] using ih

theorem encodeRune_ne_nil (c : Char) : ∃ b bs, encodeRune c = b :: bs := by
  unfold encodeRune
  split_ifs <;> exact ⟨_, _, rfl⟩

theorem readRunes_utf8Bytes (cs : List Char) : readRunes 0 (utf8Bytes cs) = cs := by
  induction cs with
  | nil => rfl
  | cons c cs ih =>
    obtain ⟨b, bs, hb⟩ := encodeRune_ne_nil c
    have hd := decodeRune_encodeRune c (utf8Bytes cs)
    rw [hb, List.cons_append] at hd
    simp only [utf8Bytes, hb, List.cons_append, readRunes, hd, List.length_cons,
      Nat.add_sub_cancel]
    rw [readRunes_skip, ih]

theorem readText_utf8Bytes (s : String) : readText (utf8Bytes s.data) = s := by
  simp [readText, readRunes_utf8Bytes]

theorem variant_text_toGo (v : Variant) : v.toGo.text = v := by
  obtain ⟨id, amount, currency⟩ := v
  simp [Variant.toGo, GoVariant.text, readText_utf8Bytes]

theorem product_text_toGo (p : Product) : p.toGo.text = p := by
  obtain ⟨id, title, status, sd, cs, slug, ⟨turl⟩, variants⟩ := p
  cases variants with
  | none => simp [Product.toGo, GoProduct.text, readText_utf8Bytes]
  | some vs =>
    simp [Product.toGo, GoProduct.text, readText_utf8Bytes, Function.comp_def,
      variant_text_toGo]

theorem goString_toGo_text (s : GoString) (h : s.IsUTF8) : utf8Bytes (readText s).data = s := by
  obtain ⟨t, rfl⟩ := h
  rw [readText_utf8Bytes]

theorem goVariant_toGo_text (v : GoVariant) (h : v.IsUTF8) : v.text.toGo = v := by
  obtain ⟨id, amount, currency⟩ := v
  obtain ⟨h1, h2⟩ := h
  simp only [GoVariant.text, Variant.toGo, goString_toGo_text _ h1, goString_toGo_text _ h2]

theorem goProduct_toGo_text (g : GoProduct) (h : g.IsUTF8) : g.text.toGo = g := by
  obtain ⟨id, title, status, sd, cs, slug, ⟨turl⟩, variants⟩ := g
  obtain ⟨h1, h2, h3, h4, h5, h6, h7, h8⟩ := h
  have hvs : (variants.map fun vs => vs.map GoVariant.text).map
      (fun vs => vs.map Variant.toGo) = variants := by
    cases variants with
    | none => rfl
    | some vs =>
      have hall := h8 vs rfl
      simp only [Option.map_some', List.map_map, Option.some.injEq]
      conv_rhs => rw [← List.map_id vs]
      exact List.map_congr_left fun v hv => goVariant_toGo_text v (hall v hv)
  simp only [GoProduct.text, Product.toGo, goString_toGo_text _ h1, goString_toGo_text _ h2,
    goString_toGo_text _ h3, goString_toGo_text _ h4, goString_toGo_text _ h5,
    goString_toGo_text _ h6, goString_toGo_text _ h7, hvs]

theorem goProduct_text_wellTyped (g : GoProduct) (h : g.WellTyped) : g.text.WellTyped := by
  intro vs hvs v hv
  cases hg : g.Variants with
  | none => simp [GoProduct.text, hg] at hvs
  | some gvs =>
    simp only [GoProduct.text, hg, Option.map_some', Option.some.injEq] at hvs
    subst hvs
    obtain ⟨gv, hgv, rfl⟩ := List.mem_map.1 hv
    exact h gvs hg gv hgv

/-- C8 as stated fails: on the body `{}` `MonitorProduct` returns the zero product and a `nil`
error. -/
theorem MonitorProduct_empty_object_no_error :
    MonitorProduct (fun _ => .response 200 (some (.obj [])))
        "https://store.ui.com/_next/data/aB3/us/en/p.json" =
      (Product.zero, none) := by
  decide

/-- C8, amended.  On a body that is JSON, is nested no deeper than 10000 and brings no product
(`null`, an object without `pageProps`, or one whose `pageProps` is `null` or an object without
`product`) `MonitorProduct` returns the zero product and a `nil` error. -/
theorem MonitorProduct_lacksProduct (status : Nat) (j : JVal) (url : String)
    (h : lacksProduct j = true) (hd : j.depth ≤ maxNestingDepth) :
    MonitorProduct (fun _ => .response status (some j)) url = (Product.zero, none) := by
  simp only [MonitorProduct, Unmarshal_lacksProduct j h hd]
  rfl

/-- C8, amended, at the body `{"props":{},"pageProps":{"item":1}}`. -/
theorem MonitorProduct_lacksProduct_witness :
    lacksProduct (.obj [("props", .obj []), ("pageProps", .obj [("item", .int 1)])]) = true ∧
      (JVal.obj [("props", .obj []), ("pageProps", .obj [("item", .int 1)])]).depth ≤
        maxNestingDepth ∧
      MonitorProduct
          (fun _ =>
            .response 200 (some (.obj [("props", .obj []), ("pageProps", .obj [("item", .int 1)])])))
          "u" =
        (Product.zero, none) :=
  ⟨by decide, by decide, MonitorProduct_lacksProduct 200 _ "u" (by decide) (by decide)⟩

/-- C9 as stated fails: for the Go product whose title is the bytes `"caf\xff"`, the envelope
written by `json.Marshal` decodes without an error to a product whose title is `"caf\ufffd"`,
which is not the title that was encoded. -/
theorem roundtrip_fails_on_invalid_utf8 :
    MonitorProduct (fun _ => .response 200 (some (marshalEnvelope badTitleProduct))) "u" =
        (badTitleProduct.text, none) ∧
      badTitleProduct.Title = [0x63, 0x61, 0x66, 0xFF] ∧
      badTitleProduct.text.toGo.Title = [0x63, 0x61, 0x66, 0xEF, 0xBF, 0xBD] ∧
      badTitleProduct.text.toGo ≠ badTitleProduct := by
  decide

/-- C9, amended.  For every Go product whose strings are well-formed UTF-8 and whose amounts
are values of type `int`, `MonitorProduct` on a response whose body is the envelope
`{pageProps: {product: ...}}` written by `json.Marshal` returns a `nil` error and a product
equal to the one encoded: every field, every variant in the same order, amount and currency
as they were. -/
theorem MonitorProduct_roundtrip (g : GoProduct) (hu : g.IsUTF8) (hr : g.WellTyped)
    (status : Nat) (url : String) :
    ∃ p, MonitorProduct (fun _ => .response status (some (marshalEnvelope g))) url = (p, none) ∧
      p.toGo = g :=
  ⟨g.text, MonitorProduct_envelope g.text (goProduct_text_wellTyped g hr) status url,
    goProduct_toGo_text g hu⟩

/-- C9, amended, at the sample product. -/
theorem MonitorProduct_roundtrip_witness :
    sampleProduct.toGo.IsUTF8 ∧ sampleProduct.toGo.WellTyped ∧
      ∃ p, MonitorProduct (fun _ => .response 200 (some (marshalEnvelope sampleProduct.toGo))) "u" =
          (p, none) ∧
        p.toGo = sampleProduct.toGo :=
  have hu : sampleProduct.toGo.IsUTF8 := by
    refine ⟨⟨_, rfl⟩, ⟨_, rfl⟩, ⟨_, rfl⟩, ⟨_, rfl⟩, ⟨_, rfl⟩, ⟨_, rfl⟩, ⟨_, rfl⟩, ?_⟩
    intro vs hvs v hv
    simp only [sampleProduct, Product.toGo, Option.map_some', List.map_cons, List.map_nil,
      Option.some.injEq] at hvs
    subst hvs
    simp only [List.mem_singleton] at hv
    subst hv
    exact ⟨⟨_, rfl⟩, ⟨_, rfl⟩⟩
  have hr : sampleProduct.toGo.WellTyped := by
    intro vs hvs v hv
    simp only [sampleProduct, Product.toGo, Option.map_some', List.map_cons, List.map_nil,
      Option.some.injEq] at hvs
    subst hvs
    simp only [List.mem_singleton] at hv
    subst hv
    decide
  ⟨hu, hr, MonitorProduct_roundtrip sampleProduct.toGo hu hr 200 "u"⟩

/-! ## Resolver: a body without the asset path -/

/-- C2 as stated fails: a store that holds the URLs of an earlier resolution still holds them
after `FetchXAppBuild` has failed on a page without the asset path. -/
theorem FetchXAppBuild_failure_keeps_urls :
    (FetchXAppBuild NewUnifiStore (.response 200 homePage)).2 = resolvedStore ∧
      (∀ pre buildID post, ¬ Occurs "<html></html>".data pre buildID post) ∧
      (FetchXAppBuild resolvedStore (.response 200 "<html></html>")).1 =
        some "X-App-Build Not Found" ∧
      (FetchXAppBuild resolvedStore (.response 200 "<html></html>")).2.ProdURLs =
        [ "https://store.ui.com/_next/data/aB3/us/en/category/all-power-tech/collections/power-tech/products/usp-pdu-pro.json",
          "https://store.ui.com/_next/data/aB3/us/en/category/network-storage/collections/unifi-new-integrations-network-storage/products/unas-pro.json" ] :=
  ⟨by decide, findLeftmost_none _ (by decide), by decide, by decide⟩

/-- C2, amended.  When the body of the home page does not contain the asset path,
`FetchXAppBuild` returns the error `X-App-Build Not Found` and leaves the store as it was: it
adds no URL and removes none. -/
theorem FetchXAppBuild_not_found (store : UnifiStore) (status : Nat) (soup : String)
    (h : ∀ pre buildID post, ¬ Occurs soup.data pre buildID post) :
    FetchXAppBuild store (.response status soup) = (some "X-App-Build Not Found", store) := by
  cases hf : findLeftmost soup.data with
  | none => simp only [FetchXAppBuild, resolveBody, FindStringSubmatch, hf]
  | some buildID =>
    obtain ⟨pre, post, ho, _⟩ := findLeftmost_some _ _ hf
    exact absurd ho (h pre buildID post)

/-- C2, amended, at a new store and a page without the asset path: no URL afterwards. -/
theorem FetchXAppBuild_not_found_witness :
    (∀ pre buildID post, ¬ Occurs "<html></html>".data pre buildID post) ∧
      FetchXAppBuild NewUnifiStore (.response 200 "<html></html>") =
        (some "X-App-Build Not Found", NewUnifiStore) ∧
      NewUnifiStore.ProdURLs = [] :=
  ⟨findLeftmost_none _ (by decide),
    FetchXAppBuild_not_found NewUnifiStore 200 "<html></html>" (findLeftmost_none _ (by decide)),
    rfl⟩

/-! ## The price field -/

theorem fmtInteger_plain_ofNat (n : Nat) : fmtInteger 0 (n : Int) = Nat.repr n := by
  have h : ¬ ((n : Int) < 0) := by omega
  simp [fmtInteger, h, Nat.repr, List.asString]

theorem toDigits_pad_two :
    ∀ m < 100,
      List.replicate (2 - (Nat.toDigits 10 m).length) '0' ++ Nat.toDigits 10 m =
        [Nat.digitChar (m / 10), Nat.digitChar (m % 10)] := by
  decide

theorem fmtInteger_two_ofNat (m : Nat) (h : m < 100) :
    fmtInteger 2 (m : Int) = String.mk [Nat.digitChar (m / 10), Nat.digitChar (m % 10)] := by
  have h0 : ¬ ((m : Int) < 0) := by omega
  simp only [fmtInteger, h0, if_false, Int.natAbs_ofNat]
  rw [toDigits_pad_two m h]

theorem priceString_nonneg (amount : Int) (h : 0 ≤ amount) :
    priceString amount =
      "$" ++ Nat.repr (amount.toNat / 100) ++ "." ++
        String.mk
          [Nat.digitChar (amount.toNat % 100 / 10), Nat.digitChar (amount.toNat % 100 % 10)] := by
  obtain ⟨n, rfl⟩ := Int.eq_ofNat_of_zero_le h
  have hd : (n : Int).tdiv 100 = ((n / 100 : Nat) : Int) := (Int.ofNat_tdiv n 100).symm
  have hm : (n : Int).tmod 100 = ((n % 100 : Nat) : Int) := (Int.ofNat_tmod n 100).symm
  simp only [priceString, hd, hm, fmtInteger_plain_ofNat,
    fmtInteger_two_ofNat (n % 100) (Nat.mod_lt _ (by decide)), Int.toNat_ofNat]

theorem webhookPayload_price (product : Product) (v : Variant) (vs : List Variant)
    (hv : product.Variants = some (v :: vs)) :
    ∃ payload, webhookPayload product = .ret payload ∧
      payload.field "Price" = some (priceString v.DisplayPrice.Amount) := by
  simp [webhookPayload, hv, index0, Payload.field, priceString]

/-- C4 as stated fails: for the amount `-5` the value of the field is `$0.-5`, and what follows
the dot is not two decimal digits. -/
theorem price_field_negative_amount :
    (∃ payload, SendWebhook none negativeProduct = .ret (payload, none) ∧
        payload.field "Price" = some "$0.-5") ∧
      ¬ ∃ d1 d2 : Char, d1.isDigit = true ∧ d2.isDigit = true ∧
          "$0.-5" = "$" ++ fmtInteger 0 ((-5 : Int).tdiv 100) ++ "." ++ String.mk [d1, d2] := by
  refine ⟨⟨_, rfl, by decide⟩, ?_⟩
  rintro ⟨d1, d2, h1, _, h⟩
  have hq : fmtInteger 0 ((-5 : Int).tdiv 100) = "0" := by decide
  rw [hq] at h
  have hdata := congrArg String.data h
  simp only [String.data_append] at hdata
  have : d1 = '-' := by
    have h3 := congrArg (fun l => l.get? 3) hdata
    simpa using h3.symm
  subst this
  revert h1
  decide

/-- C4, amended.  For every product with at least one variant whose first variant has an
amount `a ≥ 0`, `SendWebhook` posts a payload whose field `Price` is `$`, the decimal of
`a / 100`, a dot, and the two decimal digits of `a % 100`. -/
theorem price_field_nonneg (post : GoError) (product : Product) (v : Variant)
    (vs : List Variant) (hv : product.Variants = some (v :: vs))
    (ha : 0 ≤ v.DisplayPrice.Amount) :
    ∃ payload, SendWebhook post product = .ret (payload, post) ∧
      payload.field "Price" =
        some
          ("$" ++ Nat.repr (v.DisplayPrice.Amount.toNat / 100) ++ "." ++
            String.mk
              [ Nat.digitChar (v.DisplayPrice.Amount.toNat % 100 / 10),
                Nat.digitChar (v.DisplayPrice.Amount.toNat % 100 % 10) ]) := by
  obtain ⟨payload, hp, hf⟩ := webhookPayload_price product v vs hv
  refine ⟨payload, ?_, ?_⟩
  · simp only [SendWebhook, hp]
  · rw [hf, priceString_nonneg _ ha]

/-- C4, amended, at the amount 37900: the field is `$379.00`. -/
theorem price_field_nonneg_witness :
    sampleProduct.Variants =
        some [{ ID := "USP-PDU-Pro", DisplayPrice := { Amount := 37900, Currency := "USD" } }] ∧
      (0 : Int) ≤ 37900 ∧
      "$" ++ Nat.repr ((37900 : Int).toNat / 100) ++ "." ++
          String.mk
            [ Nat.digitChar ((37900 : Int).toNat % 100 / 10),
              Nat.digitChar ((37900 : Int).toNat % 100 % 10) ] =
        "$379.00" ∧
      ∃ payload, SendWebhook none sampleProduct = .ret (payload, none) ∧
        payload.field "Price" =
          some
            ("$" ++ Nat.repr ((37900 : Int).toNat / 100) ++ "." ++
              String.mk
                [ Nat.digitChar ((37900 : Int).toNat % 100 / 10),
                  Nat.digitChar ((37900 : Int).toNat % 100 % 10) ]) :=
  ⟨rfl, by decide, by decide,
    price_field_nonneg none sampleProduct
      { ID := "USP-PDU-Pro", DisplayPrice := { Amount := 37900, Currency := "USD" } } [] rfl
      (by decide)⟩

/-! ## The loop: lemmas -/

theorem monitorLoop_cons (w : World) (k : Nat) (url : String) (urls : List String) :
    monitorLoop w k (url :: urls) =
      match MonitorProduct (w.product k) url with
      | (product, some err) =>
        ([.monitor url product (some err), .insert product, .exportCollection, .sleep 30] ++
            (monitorLoop w (k + 1) urls).1,
          (monitorLoop w (k + 1) urls).2)
      | (product, none) =>
        if product.Status = "Available" then
          match SendWebhook (w.post k) product with
          | .panic msg =>
            ([.monitor url product none, .insert product, .exportCollection, .webhook product],
              some msg)
          | .ret (payload, err) =>
            ([.monitor url product none, .insert product, .exportCollection, .webhook product,
                .post payload err] ++ (monitorLoop w (k + 1) urls).1,
              (monitorLoop w (k + 1) urls).2)
        else
          ([.monitor url product none, .insert product, .exportCollection] ++
              (monitorLoop w (k + 1) urls).1,
            (monitorLoop w (k + 1) urls).2) := by
  rw [monitorLoop]

theorem notified_monitorLoop (w : World) (urls : List String) (k : Nat) :
    notified (monitorLoop w k urls).1 = fetchedAvailable (monitorLoop w k urls).1 := by
  induction urls generalizing k with
  | nil => rfl
  | cons url urls ih =>
    rw [monitorLoop_cons]
    rcases hm : MonitorProduct (w.product k) url with ⟨product, _ | err⟩
    · by_cases hs : product.Status = "Available"
      · cases hw : SendWebhook (w.post k) product with
        | panic msg => simp [hs, hw, notified, fetchedAvailable]
        | ret r =>
          obtain ⟨payload, err⟩ := r
          simp [hs, hw, notified, fetchedAvailable, ih]
      · simp [hs, notified, fetchedAvailable, ih]
    · simp [notified, fetchedAvailable, ih]

theorem notified_prefix (w : World) (urls : List String) (k : Nat) :
    ∃ rest, availableOf (fetchResults w k urls) = notified (monitorLoop w k urls).1 ++ rest ∧
      (notified (monitorLoop w k urls).1 = [] → rest = []) := by
  induction urls generalizing k with
  | nil => exact ⟨[], rfl, fun _ => rfl⟩
  | cons url urls ih =>
    obtain ⟨rest, h1, h2⟩ := ih (k + 1)
    rw [monitorLoop_cons]
    simp only [fetchResults]
    rcases hm : MonitorProduct (w.product k) url with ⟨product, _ | err⟩
    · by_cases hs : product.Status = "Available"
      · cases hw : SendWebhook (w.post k) product with
        | panic msg =>
          exact ⟨availableOf (fetchResults w (k + 1) urls),
            by simp [hs, hw, availableOf, notified], by simp [hs, hw, notified]⟩
        | ret r =>
          obtain ⟨payload, err⟩ := r
          exact ⟨rest, by simp [hs, hw, availableOf, notified, h1], by simp [hs, hw, notified]⟩
      · exact ⟨rest, by simp [hs, availableOf, notified, h1], by simpa [hs, notified] using h2⟩
    · exact ⟨rest, by simp [availableOf, notified, h1], by simpa [notified] using h2⟩

theorem notified_single (w : World) (urls : List String) (k : Nat) (p : Product)
    (h : availableOf (fetchResults w k urls) = [p]) :
    notified (monitorLoop w k urls).1 = [p] := by
  obtain ⟨rest, h1, h2⟩ := notified_prefix w urls k
  rw [h] at h1
  cases hn : notified (monitorLoop w k urls).1 with
  | nil =>
    rw [hn, h2 hn] at h1
    cases h1
  | cons q qs =>
    rw [hn] at h1
    simp only [List.cons_append, List.cons.injEq] at h1
    obtain ⟨hq, hr⟩ := h1
    have : qs = [] := by
      cases qs with
      | nil => rfl
      | cons a b => simp at hr
    rw [this, hq]

theorem notified_of_no_panic (w : World) (urls : List String) (k : Nat)
    (h : (monitorLoop w k urls).2 = none) :
    notified (monitorLoop w k urls).1 = availableOf (fetchResults w k urls) := by
  induction urls generalizing k with
  | nil => rfl
  | cons url urls ih =>
    rw [monitorLoop_cons] at h ⊢
    simp only [fetchResults]
    rcases hm : MonitorProduct (w.product k) url with ⟨product, _ | err⟩
    · rw [hm] at h
      by_cases hs : product.Status = "Available"
      · cases hw : SendWebhook (w.post k) product with
        | panic msg => simp [hs, hw] at h
        | ret r =>
          obtain ⟨payload, err⟩ := r
          simp only [hs, hw, if_true] at h
          simp [hs, hw, notified, availableOf, ih (k + 1) h]
      · simp only [hs, if_false] at h
        simp [hs, notified, availableOf, ih (k + 1) h]
    · rw [hm] at h
      simp only at h
      simp [notified, availableOf, ih (k + 1) h]

theorem fetchedURLs_monitorLoop (w : World) (urls : List String) (k : Nat)
    (h : (monitorLoop w k urls).2 = none) : fetchedURLs (monitorLoop w k urls).1 = urls := by
  induction urls generalizing k with
  | nil => rfl
  | cons url urls ih =>
    rw [monitorLoop_cons] at h ⊢
    rcases hm : MonitorProduct (w.product k) url with ⟨product, _ | err⟩
    · rw [hm] at h
      by_cases hs : product.Status = "Available"
      · cases hw : SendWebhook (w.post k) product with
        | panic msg => simp [hs, hw] at h
        | ret r =>
          obtain ⟨payload, err⟩ := r
          simp only [hs, hw, if_true] at h
          simp [hs, hw, fetchedURLs, ih (k + 1) h]
      · simp only [hs, if_false] at h
        simp [hs, fetchedURLs, ih (k + 1) h]
    · rw [hm] at h
      simp only at h
      simp [fetchedURLs, ih (k + 1) h]

theorem totalSleep_monitorLoop (w : World) (urls : List String) (k : Nat) :
    totalSleep (monitorLoop w k urls).1 = 30 * fetchErrors (monitorLoop w k urls).1 := by
  induction urls generalizing k with
  | nil => rfl
  | cons url urls ih =>
    rw [monitorLoop_cons]
    rcases hm : MonitorProduct (w.product k) url with ⟨product, _ | err⟩
    · by_cases hs : product.Status = "Available"
      · cases hw : SendWebhook (w.post k) product with
        | panic msg => simp [hs, hw, totalSleep, fetchErrors]
        | ret r =>
          obtain ⟨payload, err⟩ := r
          simp [hs, hw, totalSleep, fetchErrors, ih]
      · simp [hs, totalSleep, fetchErrors, ih]
    · simp [totalSleep, fetchErrors, ih]
      omega

theorem totalSleep_append (xs ys : List Event) :
    totalSleep (xs ++ ys) = totalSleep xs + totalSleep ys := by
  induction xs with
  | nil => simp [totalSleep]
  | cons e es ih => cases e <;> simp [totalSleep, ih, Nat.add_assoc]

theorem fetchErrors_append (xs ys : List Event) :
    fetchErrors (xs ++ ys) = fetchErrors xs + fetchErrors ys := by
  induction xs with
  | nil => simp [fetchErrors]
  | cons e es ih =>
    cases e with
    | monitor url p err => cases err <;> simp [fetchErrors, ih]; omega
    | _ => simp [fetchErrors, ih]

theorem fetch_failure_continues (w : World) (k : Nat) (u1 u2 : String) (urls : List String)
    (p : Product) (e : String) (h : MonitorProduct (w.product k) u1 = (p, some e)) :
    ∃ p2 e2 tail,
      (monitorLoop w k (u1 :: u2 :: urls)).1 =
        [.monitor u1 p (some e), .insert p, .exportCollection, .sleep 30, .monitor u2 p2 e2] ++
          tail := by
  rw [monitorLoop_cons, h, monitorLoop_cons]
  rcases hm : MonitorProduct (w.product (k + 1)) u2 with ⟨product, _ | err⟩
  · by_cases hs : product.Status = "Available"
    · cases hw : SendWebhook (w.post (k + 1)) product with
      | panic msg => exact ⟨product, none, _, by simp [hs, hw]; rfl⟩
      | ret r => exact ⟨product, none, _, by simp [hs, hw]; rfl⟩
    · exact ⟨product, none, _, by simp [hs]; rfl⟩
  · exact ⟨product, some err, _, by simp; rfl⟩

theorem Start_cons_of_no_panic (store : UnifiStore) (w : World) (ws : List World)
    (h : (cycle store w).panic = none) :
    (Start store (w :: ws)).1 = (cycle store w).trace ++ (Start (cycle store w).store ws).1 := by
  rw [Start]
  simp only [h]

theorem SendWebhook_no_variant (post : GoError) (product : Product)
    (h : product.Variants = none ∨ product.Variants = some []) :
    SendWebhook post product = .panic "runtime error: index out of range [0] with length 0" := by
  rcases h with h | h <;> simp [SendWebhook, webhookPayload, index0, h]

theorem cycle_resolved_panic (store next : UnifiStore) (w : World) (events : List Event)
    (msg : String) (hf : FetchXAppBuild store w.home = (none, next))
    (hm : monitorLoop w 0 next.ProdURLs = (events, some msg)) :
    cycle store w = { store := next, trace := .resolve none :: events, panic := some msg } := by
  simp only [cycle, hf, hm]

theorem cycle_resolved_done (store next : UnifiStore) (w : World) (events : List Event)
    (hf : FetchXAppBuild store w.home = (none, next))
    (hm : monitorLoop w 0 next.ProdURLs = (events, none)) :
    cycle store w =
      { store := next, trace := .resolve none :: (events ++ [.sleep 30]), panic := none } := by
  simp only [cycle, hf, hm]

theorem cycle_unresolved (store next : UnifiStore) (w : World) (e : String)
    (hf : FetchXAppBuild store w.home = (some e, next)) :
    cycle store w =
      { store := next, trace := [.resolve (some e), .sleep 30], panic := none } := by
  simp only [cycle, hf]

theorem notified_append_sleep (evs : List Event) (n : Nat) :
    notified (evs ++ [Event.sleep n]) = notified evs := by
  induction evs with
  | nil => rfl
  | cons e es ih => cases e <;> simp [notified, ih]

theorem fetchedAvailable_append_sleep (evs : List Event) (n : Nat) :
    fetchedAvailable (evs ++ [Event.sleep n]) = fetchedAvailable evs := by
  induction evs with
  | nil => rfl
  | cons e es ih =>
    cases e with
    | monitor url p err =>
      cases err with
      | none => by_cases hs : p.Status = "Available" <;> simp [fetchedAvailable, hs, ih]
      | some x => simp [fetchedAvailable, ih]
    | _ => simp [fetchedAvailable, ih]

/-! ## The loop: the claims -/

/-- C3: the code at the two bodies of the claim.  With `"variants": []` and with no `variants`
member `MonitorProduct` returns a product without a variant and a `nil` error; its status is
`"Available"`, so `Start` calls `SendWebhook`, which panics on `Variants[0]`; the iteration ends
in the panic, not in an error. -/
theorem zero_variants_panic :
    MonitorProduct (fun _ => .response 200 (some noVariantsBody)) "u" =
        ({ Product.zero with Status := "Available", Variants := some [] }, none) ∧
      MonitorProduct (fun _ => .response 200 (some missingVariantsBody)) "u" =
        ({ Product.zero with Status := "Available" }, none) ∧
      SendWebhook none { Product.zero with Status := "Available", Variants := some [] } =
        .panic "runtime error: index out of range [0] with length 0" ∧
      SendWebhook none { Product.zero with Status := "Available" } =
        .panic "runtime error: index out of range [0] with length 0" ∧
      (monitorLoop firstHasNoVariants 0 resolvedStore.ProdURLs).2 =
        some "runtime error: index out of range [0] with length 0" := by
  decide

/-- C5.  In one iteration of the outer loop of `Start`, the products `SendWebhook` is called
with are, in order and once each, the products that `MonitorProduct` returned in this
iteration with a `nil` error and the status `"Available"`, and no other; when the iteration runs
to its end these are all such results of the resolved endpoints; and when the resolved
endpoints give exactly one such result, `SendWebhook` is called exactly once, with that
product. -/
theorem notifier_once_per_available (store : UnifiStore) (w : World) :
    notified (cycle store w).trace = fetchedAvailable (cycle store w).trace ∧
      ((FetchXAppBuild store w.home).1 = none → (cycle store w).panic = none →
        notified (cycle store w).trace =
          availableOf (fetchResults w 0 (FetchXAppBuild store w.home).2.ProdURLs)) ∧
      ∀ p, (FetchXAppBuild store w.home).1 = none →
        availableOf (fetchResults w 0 (FetchXAppBuild store w.home).2.ProdURLs) = [p] →
        notified (cycle store w).trace = [p] := by
  rcases hf : FetchXAppBuild store w.home with ⟨_ | e, next⟩
  · have hn := notified_monitorLoop w next.ProdURLs 0
    have h1 := notified_single w next.ProdURLs 0
    have h2 := notified_of_no_panic w next.ProdURLs 0
    rcases hm : monitorLoop w 0 next.ProdURLs with ⟨events, _ | msg⟩
    · rw [hm] at hn h1 h2
      rw [cycle_resolved_done store next w events hf hm]
      simp only at hn h1 h2 ⊢
      refine ⟨?_, fun _ _ => ?_, fun p _ hp => ?_⟩
      · simpa [notified, fetchedAvailable, notified_append_sleep,
          fetchedAvailable_append_sleep] using hn
      · simpa [notified, notified_append_sleep] using h2
      · simpa [notified, notified_append_sleep] using h1 p hp
    · rw [hm] at hn h1
      rw [cycle_resolved_panic store next w events msg hf hm]
      simp only at hn h1 ⊢
      refine ⟨?_, ?_, fun p _ hp => ?_⟩
      · simpa [notified, fetchedAvailable] using hn
      · intro _ hp; cases hp
      · simpa [notified] using h1 p hp
  · rw [cycle_unresolved store next w e hf]
    refine ⟨rfl, ?_, ?_⟩
    · intro h; cases h
    · intro p h; cases h

/-- C5, at a world whose second endpoint alone answers with a product in stock. -/
theorem notifier_once_per_available_witness :
    (FetchXAppBuild NewUnifiStore secondInStock.home).1 = none ∧
      availableOf
          (fetchResults secondInStock 0 (FetchXAppBuild NewUnifiStore secondInStock.home).2.ProdURLs) =
        [sampleProduct] ∧
      notified (cycle NewUnifiStore secondInStock).trace = [sampleProduct] :=
  ⟨by decide, by decide,
    (notifier_once_per_available NewUnifiStore secondInStock).2.2 sampleProduct (by decide)
      (by decide)⟩

/-- C6: the code when the first of the two resolved endpoints answers with a product in stock
that has no variant.  `MonitorProduct` is called with the first URL only: the panic of
`SendWebhook` ends the iteration before the second endpoint is fetched. -/
theorem second_endpoint_not_fetched :
    (cycle NewUnifiStore firstHasNoVariants).store.ProdURLs =
        [ "https://store.ui.com/_next/data/aB3/us/en/category/all-power-tech/collections/power-tech/products/usp-pdu-pro.json",
          "https://store.ui.com/_next/data/aB3/us/en/category/network-storage/collections/unifi-new-integrations-network-storage/products/unas-pro.json" ] ∧
      fetchedURLs (cycle NewUnifiStore firstHasNoVariants).trace =
        [ "https://store.ui.com/_next/data/aB3/us/en/category/all-power-tech/collections/power-tech/products/usp-pdu-pro.json" ] ∧
      (cycle NewUnifiStore firstHasNoVariants).panic =
        some "runtime error: index out of range [0] with length 0" := by
  decide

/-- C10 as stated fails: an iteration without a failure sleeps 30 seconds, one in which the
fetch of the first endpoint fails sleeps 60, one in which both fetches fail sleeps 90; none of
them panics. -/
theorem failed_fetch_adds_delay :
    totalSleep (cycle NewUnifiStore quietWorld).trace = 30 ∧
      (cycle NewUnifiStore firstFetchFails).panic = none ∧
      fetchErrors (cycle NewUnifiStore firstFetchFails).trace = 1 ∧
      totalSleep (cycle NewUnifiStore firstFetchFails).trace = 60 ∧
      (cycle NewUnifiStore bothFetchesFail).panic = none ∧
      totalSleep (cycle NewUnifiStore bothFetchesFail).trace = 90 := by
  decide

/-- C10, amended.  An iteration of the outer loop of `Start` that runs to its end sleeps 30
seconds, and 30 seconds more for every call of `MonitorProduct` that returned an error; when
the resolution fails that is 30 seconds. -/
theorem cycle_delay (store : UnifiStore) (w : World) (h : (cycle store w).panic = none) :
    totalSleep (cycle store w).trace = 30 + 30 * fetchErrors (cycle store w).trace ∧
      ((FetchXAppBuild store w.home).1 ≠ none → totalSleep (cycle store w).trace = 30) := by
  rcases hf : FetchXAppBuild store w.home with ⟨_ | e, next⟩
  · have hs := totalSleep_monitorLoop w next.ProdURLs 0
    rcases hm : monitorLoop w 0 next.ProdURLs with ⟨events, _ | msg⟩
    · rw [hm] at hs
      rw [cycle_resolved_done store next w events hf hm]
      simp only at hs ⊢
      refine ⟨?_, fun hne => absurd rfl hne⟩
      simp only [totalSleep, fetchErrors, totalSleep_append, fetchErrors_append, hs]
      omega
    · rw [cycle_resolved_panic store next w events msg hf hm] at h
      cases h
  · rw [cycle_unresolved store next w e hf]
    exact ⟨rfl, fun _ => rfl⟩

/-- C10, amended, at three worlds: the webhook cannot be reached (30 seconds), the home page
cannot be reached (30 seconds), the first fetch fails (60 seconds). -/
theorem cycle_delay_witness :
    (cycle NewUnifiStore webhookDown).panic = none ∧
      totalSleep (cycle NewUnifiStore webhookDown).trace = 30 ∧
      totalSleep (cycle NewUnifiStore homeDown).trace = 30 ∧
      totalSleep (cycle NewUnifiStore firstFetchFails).trace =
        30 + 30 * fetchErrors (cycle NewUnifiStore firstFetchFails).trace ∧
      fetchErrors (cycle NewUnifiStore firstFetchFails).trace = 1 :=
  ⟨by decide,
    by
      have h := (cycle_delay NewUnifiStore webhookDown (by decide)).1
      have e : fetchErrors (cycle NewUnifiStore webhookDown).trace = 0 := by decide
      rw [e] at h
      exact h,
    (cycle_delay NewUnifiStore homeDown (by decide)).2 (by decide),
    (cycle_delay NewUnifiStore firstFetchFails (by decide)).1, by decide⟩

end UnifiMonitor
